import Mathlib

namespace BorderlessBits

/-! Shallow embedding of the contact-form pipeline of borderlessbits.com:
`src/lib/validation.ts`, `src/lib/emailjs.ts`, `src/lib/store.ts` and the
`ContactForm` component.  JS strings are modeled as `String` / `List Char`
(sequences of Unicode scalar values; JS `.length` counts UTF-16 code units,
which agrees on BMP text).  Wall-clock timestamps are explicit `Int`
parameters.  Browser/network effects are modeled by an explicit environment
record and result traces. -/

/-- Characters matched by the JS `\s` class and trimmed by
`String.prototype.trim` (ECMAScript WhiteSpace plus LineTerminator). -/
def jsWhitespace (c : Char) : Bool :=
  c = ' ' || c = Char.ofNat 9 || c = Char.ofNat 10 || c = Char.ofNat 11 ||
  c = Char.ofNat 12 || c = Char.ofNat 13 || c = Char.ofNat 0xA0 ||
  c = Char.ofNat 0x1680 || (0x2000 ≤ c.toNat && c.toNat ≤ 0x200A) ||
  c = Char.ofNat 0x2028 || c = Char.ofNat 0x2029 || c = Char.ofNat 0x202F ||
  c = Char.ofNat 0x205F || c = Char.ofNat 0x3000 || c = Char.ofNat 0xFEFF

/-- Modelled from the spec: the first sanitizer pass is `DOMPurify.sanitize`
with `ALLOWED_TAGS: []`, `ALLOWED_ATTR: []` (library code, not part of this
repository).  Per the spec it strips all markup, retaining text content.
Modeled as deleting every segment from an opening `<` through the next `>`;
on markup-free input (no `<`) it is the identity, which matches DOMPurify.
The flag records whether the scanner is inside a tag. -/
def stripTagsAux : Bool → List Char → List Char
  | _, [] => []
  | true, c :: rest => if c = '>' then stripTagsAux false rest else stripTagsAux true rest
  | false, c :: rest => if c = '<' then stripTagsAux true rest else c :: stripTagsAux false rest

def stripTags (l : List Char) : List Char := stripTagsAux false l

/-- Collapse of every maximal whitespace run into a single space, the
`replace(/\s+/g, ' ')` step of `sanitizeInput`.  The flag records whether the
previous character was whitespace (a space has already been emitted). -/
def collapseAux : Bool → List Char → List Char
  | _, [] => []
  | prevWs, c :: rest =>
    if jsWhitespace c then
      if prevWs then collapseAux true rest else ' ' :: collapseAux true rest
    else c :: collapseAux false rest

def collapseWs (l : List Char) : List Char := collapseAux false l

/-- Removal of trailing whitespace (the right half of JS `trim()`). -/
def trimRight : List Char → List Char
  | [] => []
  | c :: cs =>
    match trimRight cs with
    | [] => if jsWhitespace c then [] else [c]
    | d :: ds => c :: d :: ds

/-- JS `String.prototype.trim`: drop leading and trailing whitespace. -/
def trimList (l : List Char) : List Char := trimRight (l.dropWhile jsWhitespace)

/-- Pipeline of `sanitizeInput` on character lists: DOMPurify pass, then
`.trim()`, then `.replace(/\s+/g, ' ')`, then `.substring(0, 2000)`. -/
def sanitizeList (l : List Char) : List Char :=
  (collapseWs (trimList (stripTags l))).take 2000

/-- `sanitizeInput` from `src/lib/validation.ts`.  The `!input` truthiness
guard returns the empty string on empty input (the `typeof` check is vacuous
under the TS type). -/
def sanitizeInput (s : String) : String :=
  if s = "" then "" else String.mk (sanitizeList s.toList)

/-- Case-insensitive match of a pattern against a prefix of the input,
returning the remainder on success (ASCII case folding, as the
case-insensitive JS regexes here are all-ASCII). -/
def matchCI : List Char → List Char → Option (List Char)
  | [], l => some l
  | _ :: _, [] => none
  | p :: ps, c :: cs => if p.toLower = c.toLower then matchCI ps cs else none

/-- Case-insensitive substring test (`/pat/i.test(s)` for a literal pattern). -/
def containsCI (p : List Char) : List Char → Bool
  | [] => (matchCI p []).isSome
  | c :: cs => (matchCI p (c :: cs)).isSome || containsCI p cs

/-- Test for `/<tag[^>]*>/i`: an occurrence of `<` followed by the tag name
(case-insensitively) with some later `>` (the first such `>` closes the
`[^>]*` run). -/
def tagPattern (tag : List Char) : List Char → Bool
  | [] => false
  | c :: cs =>
    (match matchCI ('<' :: tag) (c :: cs) with
     | some rest => rest.any (fun d => d = '>')
     | none => false) || tagPattern tag cs

/-- JS `\w` word characters (ASCII letters, digits, underscore). -/
def wordChar (c : Char) : Bool := c.isAlpha || c.isDigit || c = '_'

/-- Suffix test for `\s*=` after the `\w+` run of `/on\w+\s*=/i`. -/
def wsThenEq : List Char → Bool
  | [] => false
  | c :: rest => if c = '=' then true else if jsWhitespace c then wsThenEq rest else false

/-- Continuation of `/on\w+\s*=/i` after `on` and one word character:
consume the rest of the `\w+` run, then require `\s*=`.  Stopping the greedy
`\w+` early cannot help, because a word character is neither whitespace nor
`=`, so only the maximal run needs to be considered. -/
def wordRunThenEq : List Char → Bool
  | [] => false
  | c :: rest => if wordChar c then wordRunThenEq rest else wsThenEq (c :: rest)

/-- Match of `/on\w+\s*=/i` anchored at the head of the list. -/
def onHandlerHere : List Char → Bool
  | a :: b :: rest =>
    a.toLower = 'o' && b.toLower = 'n' &&
    (match rest with
     | c :: rest2 => wordChar c && wordRunThenEq rest2
     | [] => false)
  | _ => false

/-- Test for `/on\w+\s*=/i` anywhere in the input. -/
def onHandlerPattern : List Char → Bool
  | [] => false
  | c :: cs => onHandlerHere (c :: cs) || onHandlerPattern cs

/-- The `SUSPICIOUS_PATTERNS` array of `src/lib/validation.ts`, in order. -/
def hasSuspiciousContent (l : List Char) : Bool :=
  tagPattern "script".toList l ||
  containsCI "javascript:".toList l ||
  onHandlerPattern l ||
  containsCI "data:text/html".toList l ||
  containsCI "vbscript:".toList l ||
  tagPattern "iframe".toList l ||
  tagPattern "object".toList l ||
  tagPattern "embed".toList l ||
  tagPattern "form".toList l ||
  tagPattern "input".toList l

/-- ASCII alphanumeric characters. -/
def alnum (c : Char) : Bool := c.isAlpha || c.isDigit

/-- Special characters allowed by `EMAIL_REGEX` in the local part (written
via code points to keep the source plain). -/
def emailLocalSpecial : List Char :=
  ['.', '!', '#', '$', '%', '&', Char.ofNat 39, '*', '+', '/', '=', '?', '^',
   '_', Char.ofNat 96, Char.ofNat 123, '|', Char.ofNat 125, '~', '-']

def emailLocalChar (c : Char) : Bool := alnum c || emailLocalSpecial.contains c

/-- Split of a character list on a separator character (like JS `split`). -/
def splitOnCharAux (sep : Char) : List Char → List Char → List (List Char)
  | acc, [] => [acc.reverse]
  | acc, c :: rest =>
    if c = sep then acc.reverse :: splitOnCharAux sep [] rest
    else splitOnCharAux sep (c :: acc) rest

def splitOnChar (sep : Char) (l : List Char) : List (List Char) :=
  splitOnCharAux sep [] l

/-- A domain label per `EMAIL_REGEX`: 1 to 63 characters, alphanumeric ends,
alphanumeric-or-hyphen interior. -/
def labelOk (l : List Char) : Bool :=
  match l with
  | [] => false
  | c :: rest =>
    alnum c && decide (l.length ≤ 63) &&
    (match rest.reverse with
     | [] => true
     | d :: mid => alnum d && mid.all (fun e => alnum e || e = '-'))

/-- `EMAIL_REGEX.test`: anchored `local@label(.label)*` with the character
classes above.  Neither side of the pattern can contain `@`, so a match
forces exactly one `@`. -/
def emailRegexTest (l : List Char) : Bool :=
  match splitOnChar '@' l with
  | [localPart, domain] =>
    !localPart.isEmpty && localPart.all emailLocalChar &&
    (splitOnChar '.' domain).all labelOk
  | _ => false

/-- Characters of `NAME_REGEX`: ASCII letters, the Latin-1/Extended ranges
listed in the class, `\s`, hyphen, apostrophe, period. -/
def nameChar (c : Char) : Bool :=
  c.isAlpha || (0xC0 ≤ c.toNat && c.toNat ≤ 0xFF) ||
  (0x100 ≤ c.toNat && c.toNat ≤ 0x17F) || (0x180 ≤ c.toNat && c.toNat ≤ 0x24F) ||
  (0x1E00 ≤ c.toNat && c.toNat ≤ 0x1EFF) || jsWhitespace c || c = '-' ||
  c = Char.ofNat 39 || c = '.'

def nameRegexTest (l : List Char) : Bool := !l.isEmpty && l.all nameChar

/-- `PHONE_REGEX.test`: optional `+`, a leading digit `1`-`9`, then up to 15
further digits. -/
def phoneCore : List Char → Bool
  | [] => false
  | c :: rest => ('1' ≤ c && c ≤ '9') && decide (rest.length ≤ 15) && rest.all Char.isDigit

def phoneRegexTest (l : List Char) : Bool :=
  match l with
  | '+' :: rest => phoneCore rest
  | _ => phoneCore l

/-- `validateField` from `src/lib/validation.ts` (the `switch` is modeled as
an `if` chain; the `default` branch returns `null`). -/
def validateField (field : String) (value : String) : Option String :=
  let sanitizedValue := sanitizeInput value
  if hasSuspiciousContent sanitizedValue.toList then
    some "Invalid characters detected. Please remove any HTML or script content."
  else if field = "name" then
    if sanitizedValue = "" then some "Name is required"
    else if sanitizedValue.toList.length < 2 then some "Name must be at least 2 characters long"
    else if 100 < sanitizedValue.toList.length then some "Name must be less than 100 characters"
    else if !nameRegexTest sanitizedValue.toList then
      some "Name can only contain letters, spaces, hyphens, and apostrophes"
    else none
  else if field = "email" then
    if sanitizedValue = "" then some "Email is required"
    else if !emailRegexTest sanitizedValue.toList then some "Please enter a valid email address"
    else if 254 < sanitizedValue.toList.length then some "Email address is too long"
    else none
  else if field = "company" then
    if sanitizedValue ≠ "" && decide (200 < sanitizedValue.toList.length) then
      some "Company name must be less than 200 characters"
    else none
  else if field = "message" then
    if sanitizedValue = "" then some "Message is required"
    else if sanitizedValue.toList.length < 10 then some "Message must be at least 10 characters long"
    else if 2000 < sanitizedValue.toList.length then some "Message must be less than 2000 characters"
    else none
  else if field = "phone" then
    if sanitizedValue ≠ "" && !phoneRegexTest sanitizedValue.toList then
      some "Please enter a valid phone number"
    else none
  else none

/-- `ContactFormData` from `src/types/index.ts`.  The enum-typed fields are
modeled as strings, as `validateContactForm` checks them dynamically; the
optional fields are `Option String` (JS `undefined` is `none`). -/
structure ContactFormData where
  name : String
  email : String
  company : Option String
  project_type : String
  project_timeline : String
  message : String
  budget_range : Option String
  referral_source : Option String
deriving DecidableEq

/-- JS truthiness of an optional string field (`undefined` and `""` are
falsy). -/
def present (v : Option String) : Bool := v.getD "" ≠ ""

def validProjectTypes : List String :=
  ["cloud_architecture", "healthcare_software", "enterprise_consulting", "other"]

def validTimelines : List String :=
  ["immediate", "within_3_months", "within_6_months", "planning_phase"]

def validBudgetRanges : List String :=
  ["under_25k", "from_25k_to_50k", "from_50k_to_100k", "over_100k"]

def validReferralSources : List String :=
  ["google_search", "linkedin", "referral", "other"]

/-- Accumulation of a single optional error under its field key (one
`errors.field = msg` assignment in the source). -/
def optErr (field : String) (r : Option String) : List (String × String) :=
  match r with
  | some e => [(field, e)]
  | none => []

/-- `validateContactForm` from `src/lib/validation.ts`; the `FormErrors`
object is modeled as the list of key/message pairs in assignment order. -/
def validateContactForm (d : ContactFormData) : List (String × String) :=
  optErr "name" (validateField "name" d.name) ++
  optErr "email" (validateField "email" d.email) ++
  optErr "message" (validateField "message" d.message) ++
  (if present d.company then optErr "company" (validateField "company" (d.company.getD "")) else []) ++
  (if validProjectTypes.contains d.project_type then []
   else [("project_type", "Please select a valid project type")]) ++
  (if validTimelines.contains d.project_timeline then []
   else [("project_timeline", "Please select a valid timeline")]) ++
  (if present d.budget_range then
    (if validBudgetRanges.contains (d.budget_range.getD "") then []
     else [("budget_range", "Please select a valid budget range")])
   else []) ++
  (if present d.referral_source then
    (if validReferralSources.contains (d.referral_source.getD "") then []
     else [("referral_source", "Please select a valid referral source")])
   else [])

/-- Count of occurrences of `http://` or `https://` (the `g`-global match
count of `/https?:\/\//g`).  Matches of this pattern can never overlap (no
proper suffix of either literal is one of their prefixes), so counting every
starting position equals the JS left-to-right scan count. -/
def startsUrlMark (l : List Char) : Bool :=
  ("http://".toList.isPrefixOf l) || ("https://".toList.isPrefixOf l)

def countUrl : List Char → Nat
  | [] => 0
  | c :: cs => (if startsUrlMark (c :: cs) then 1 else 0) + countUrl cs

/-- JS regex line terminators, which `.` does not match. -/
def isLineTerm (c : Char) : Bool :=
  c = Char.ofNat 10 || c = Char.ofNat 13 || c = Char.ofNat 0x2028 || c = Char.ofNat 0x2029

/-- Test for `/(.)\1{10,}/`: some character occurs 11 or more times in a row;
the first occurrence is matched by `.`, so it must not be a line terminator
(the backreferences then repeat the same character).  Arguments: current run
character, current run length, rest of input. -/
def hasLongRunAux : Char → Nat → List Char → Bool
  | c, n, [] => decide (11 ≤ n) && !isLineTerm c
  | c, n, d :: rest =>
    if d = c then hasLongRunAux c (n + 1) rest
    else (decide (11 ≤ n) && !isLineTerm c) || hasLongRunAux d 1 rest

def hasLongRun : List Char → Bool
  | [] => false
  | c :: rest => hasLongRunAux c 1 rest

/-- The fixed spam-phrase alternatives of
`/\b(buy now|click here|free money|guaranteed|limited time|act now)\b/i`. -/
def spamPhrases : List (List Char) :=
  ["buy now", "click here", "free money", "guaranteed", "limited time", "act now"].map String.toList

/-- Match of one phrase at the head of `l`, with `\b` word boundaries: the
previous character (if any) and the character after the phrase (if any) must
not be word characters; every phrase starts and ends with a letter. -/
def spamPhraseHere (prev : Option Char) (l : List Char) (p : List Char) : Bool :=
  (match prev with
   | none => true
   | some c => !wordChar c) &&
  (match matchCI p l with
   | none => false
   | some rest =>
     match rest with
     | [] => true
     | c :: _ => !wordChar c)

def hasSpamPhraseAux (prev : Option Char) : List Char → Bool
  | [] => false
  | c :: cs => spamPhrases.any (spamPhraseHere prev (c :: cs)) || hasSpamPhraseAux (some c) cs

def hasSpamPhrase (l : List Char) : Bool := hasSpamPhraseAux none l

/-- Test for `/\d{5,}@/`: a run of at least five ASCII digits immediately
followed by `@`.  The accumulator counts the digits seen in the current
run. -/
def digitRunThenAt : Nat → List Char → Bool
  | _, [] => false
  | n, c :: cs =>
    if c.isDigit then digitRunThenAt (n + 1) cs
    else if c = '@' && decide (5 ≤ n) then true
    else digitRunThenAt 0 cs

/-- Count of ASCII uppercase characters (`replace(/[^A-Z]/g, '').length`). -/
def upperCount (l : List Char) : Nat :=
  (l.filter (fun c => 'A' ≤ c && c ≤ 'Z')).length

/-- Full-string case-insensitive match of `/^(test|user|admin|name)$/i`. -/
def genericName (l : List Char) : Bool :=
  ["test", "user", "admin", "name"].any (fun w => l.map Char.toLower = w.toList)

/-- The six `spamIndicators` of `isLikelySpam`, in source order.  The
uppercase test `upper.length > message.length * 0.5` is expressed over
integers as `message.length < 2 * upper.length` (equivalent for natural
numbers). -/
def spamIndicators (d : ContactFormData) : List Bool :=
  [decide (2 < countUrl d.message.toList),
   hasLongRun d.message.toList,
   hasSpamPhrase d.message.toList,
   decide (d.message.toList.length < 2 * upperCount d.message.toList),
   digitRunThenAt 0 d.email.toList || containsCI "noreply".toList d.email.toList ||
     containsCI "no-reply".toList d.email.toList,
   decide (d.name.toList.length < 2) || genericName d.name.toList]

/-- `isLikelySpam` from `src/lib/validation.ts`:
`spamIndicators.filter(Boolean).length >= 2`. -/
def isLikelySpam (d : ContactFormData) : Bool :=
  decide (2 ≤ ((spamIndicators d).filter (fun b => b)).length)

/-- Signal (e) as worded by the spec (C4): the *local part* of the email
contains five or more consecutive digits (anywhere, not necessarily adjacent
to the `@`), or the email matches `noreply`/`no-reply`.  Used to compare the
spec wording with the code. -/
def hasDigitRun5 : Nat → List Char → Bool
  | n, [] => decide (5 ≤ n)
  | n, c :: cs =>
    if c.isDigit then decide (5 ≤ n + 1) || hasDigitRun5 (n + 1) cs
    else hasDigitRun5 0 cs

def specSignalE (email : List Char) : Bool :=
  hasDigitRun5 0 (email.takeWhile (fun c => c ≠ '@')) ||
  containsCI "noreply".toList email || containsCI "no-reply".toList email

/-- The six signals as the spec sentence of C4 words them: identical to the
code except for signal (e). -/
def specSpamSignals (d : ContactFormData) : List Bool :=
  [decide (2 < countUrl d.message.toList),
   hasLongRun d.message.toList,
   hasSpamPhrase d.message.toList,
   decide (d.message.toList.length < 2 * upperCount d.message.toList),
   specSignalE d.email.toList,
   decide (d.name.toList.length < 2) || genericName d.name.toList]

/-- `formatFormDataForSubmission` from `src/lib/validation.ts`
(`toLowerCase` modeled as per-character ASCII lowercasing). -/
def formatFormDataForSubmission (d : ContactFormData) : ContactFormData :=
  { name := sanitizeInput d.name
    email := String.mk ((sanitizeInput d.email).toList.map Char.toLower)
    company := if present d.company then some (sanitizeInput (d.company.getD "")) else none
    project_type := d.project_type
    project_timeline := d.project_timeline
    message := sanitizeInput d.message
    budget_range := d.budget_range
    referral_source := d.referral_source }

/-- The `RateLimiter` state: the private `attempts` map, keyed by identifier;
a missing key is the empty list. -/
structure RateLimiter where
  attempts : String → List Int

def emptyLimiter : RateLimiter := ⟨fun _ => []⟩

def updateAttempts (rl : RateLimiter) (id : String) (l : List Int) : RateLimiter :=
  ⟨fun i => if i = id then l else rl.attempts i⟩

/-- `RateLimiter.isAllowed`: prune to the window, reject (without writing
back) when the pruned count has reached `maxAttempts`, otherwise record the
current timestamp.  `now` stands for `Date.now()`. -/
def isAllowed (rl : RateLimiter) (id : String) (now : Int) (maxAttempts : Nat)
    (windowMs : Int) : Bool × RateLimiter :=
  let attempts := rl.attempts id
  let validAttempts := attempts.filter (fun t => decide (now - t < windowMs))
  if maxAttempts ≤ validAttempts.length then (false, rl)
  else (true, updateAttempts rl id (validAttempts ++ [now]))

/-- `RateLimiter.getRemainingTime`: based on the *stored* list (no pruning);
`attempts[0]` is the head.  The empty-list branch is unreachable for
`maxAttempts ≥ 1` (in JS it would produce `NaN`). -/
def getRemainingTime (rl : RateLimiter) (id : String) (now : Int) (maxAttempts : Nat)
    (windowMs : Int) : Int :=
  let attempts := rl.attempts id
  if attempts.length < maxAttempts then 0
  else
    match attempts with
    | [] => 0
    | oldestAttempt :: _ => max 0 (windowMs - (now - oldestAttempt))

/-- Repeated `isAllowed` calls for one identifier at the given sequence of
clock readings, with the defaults `maxAttempts = 5`, `windowMs = 300000`,
returning the results and the final limiter state. -/
def runCalls (id : String) : RateLimiter → List Int → List Bool × RateLimiter
  | rl, [] => ([], rl)
  | rl, t :: ts =>
    let step := isAllowed rl id t 5 300000
    let rest := runCalls id step.snd ts
    (step.fst :: rest.fst, rest.snd)

/-! Delivery model for `src/lib/emailjs.ts`.  The browser environment,
environment variables and network outcomes are an explicit oracle record;
each function returns its `EmailSubmissionResult` together with a trace of
the network calls it made and the backoff delays it slept. -/

/-- `RETRY_CONFIG` from `src/lib/emailjs.ts`. -/
def RETRY_maxAttempts : Nat := 3

def RETRY_baseDelay : Int := 1000

def RETRY_maxDelay : Int := 5000

/-- `getRetryDelay`: `min(baseDelay * 2^(attempt-1), maxDelay)` (callers only
use `attempt ≥ 1`, so the natural subtraction is exact). -/
def getRetryDelay (attempt : Nat) : Int :=
  min (RETRY_baseDelay * 2 ^ (attempt - 1)) RETRY_maxDelay

/-- Oracle for everything outside the submission code: hosting platform,
EmailJS environment configuration, and the outcome of each network call.
`emailjsSendOk k` is the outcome of the main `emailjs.send` on retry attempt
`k`; `emailjsErrorMsg` is the message `getErrorMessage` extracts from a failed
send. -/
structure DeliveryEnv where
  onNetlifyHost : Bool
  netlifyOk : Bool
  serviceId : String
  templateId : String
  publicKey : String
  emailjsSendOk : Nat → Bool
  emailjsErrorMsg : String

/-- `validateEmailJSConfig`: `!!(serviceId && templateId && publicKey)`. -/
def validateEmailJSConfig (env : DeliveryEnv) : Bool :=
  env.serviceId ≠ "" && env.templateId ≠ "" && env.publicKey ≠ ""

/-- `EmailSubmissionResult` (the wall-clock `timestamp` field is elided). -/
structure EmailSubmissionResult where
  success : Bool
  service : String
  message : String
deriving DecidableEq

/-- A delivery result together with the observable effects that produced it:
how many Netlify POSTs and main `emailjs.send` calls were made, and the
backoff delays slept (in order). -/
structure DeliveryTrace where
  result : EmailSubmissionResult
  netlifyCalls : Nat
  emailjsCalls : Nat
  delays : List Int
deriving DecidableEq

/-- `sendContactEmail` from `src/lib/emailjs.ts`.  The whole `try` body is
modeled branch by branch: a missing configuration *throws inside the try*, so
it reaches the same catch/retry logic as a failed `emailjs.send`; the spam
rejection is a plain `return` and is never retried.  The auto-reply is
fire-and-forget and does not affect the result (elided from the trace). -/
def sendContactEmail (env : DeliveryEnv) (d : ContactFormData) (retryAttempt : Nat) :
    DeliveryTrace :=
  if validateEmailJSConfig env = false then
    -- throw new Error('EmailJS configuration is incomplete'), caught below
    if retryAttempt < RETRY_maxAttempts then
      { result := (sendContactEmail env d (retryAttempt + 1)).result,
        netlifyCalls := 0,
        emailjsCalls := (sendContactEmail env d (retryAttempt + 1)).emailjsCalls,
        delays := getRetryDelay retryAttempt :: (sendContactEmail env d (retryAttempt + 1)).delays }
    else
      { result := ⟨false, "emailjs", "EmailJS configuration is incomplete"⟩,
        netlifyCalls := 0, emailjsCalls := 0, delays := [] }
  else if isLikelySpam (formatFormDataForSubmission d) then
    { result := ⟨false, "emailjs", "Submission rejected due to spam detection"⟩,
      netlifyCalls := 0, emailjsCalls := 0, delays := [] }
  else if env.emailjsSendOk retryAttempt then
    { result := ⟨true, "emailjs", "Email sent successfully"⟩,
      netlifyCalls := 0, emailjsCalls := 1, delays := [] }
  else if retryAttempt < RETRY_maxAttempts then
    { result := (sendContactEmail env d (retryAttempt + 1)).result,
      netlifyCalls := 0,
      emailjsCalls := 1 + (sendContactEmail env d (retryAttempt + 1)).emailjsCalls,
      delays := getRetryDelay retryAttempt :: (sendContactEmail env d (retryAttempt + 1)).delays }
  else
    { result := ⟨false, "emailjs", env.emailjsErrorMsg⟩,
      netlifyCalls := 0, emailjsCalls := 1, delays := [] }
termination_by RETRY_maxAttempts - retryAttempt
decreasing_by
  all_goals simp only [RETRY_maxAttempts] at *; omega

/-- `submitNetlifyForm`: spam check, then a single POST; a non-ok response
throws and is converted to a failure result (no retry). -/
def submitNetlifyForm (env : DeliveryEnv) (d : ContactFormData) : DeliveryTrace :=
  if isLikelySpam (formatFormDataForSubmission d) then
    { result := ⟨false, "netlify", "Submission rejected due to spam detection"⟩,
      netlifyCalls := 0, emailjsCalls := 0, delays := [] }
  else if env.netlifyOk then
    { result := ⟨true, "netlify", "Form submitted successfully"⟩,
      netlifyCalls := 1, emailjsCalls := 0, delays := [] }
  else
    -- the thrown `Netlify Forms error: <status>` message (status elided)
    { result := ⟨false, "netlify", "Netlify Forms error"⟩,
      netlifyCalls := 1, emailjsCalls := 0, delays := [] }

/-- `submitContactForm`: Netlify Forms first when hosted on `netlify.app`,
then EmailJS; when the EmailJS result is also a failure it is replaced by the
terminal `fallback` message. -/
def submitContactForm (env : DeliveryEnv) (d : ContactFormData) : DeliveryTrace :=
  if env.onNetlifyHost then
    let netlifyResult := submitNetlifyForm env d
    if netlifyResult.result.success then netlifyResult
    else
      let emailjsResult := sendContactEmail env d 1
      { result :=
          if emailjsResult.result.success then emailjsResult.result
          else ⟨false, "fallback",
            "Unable to submit form. Please email directly at richard@borderlessbits.com"⟩,
        netlifyCalls := netlifyResult.netlifyCalls,
        emailjsCalls := emailjsResult.emailjsCalls,
        delays := emailjsResult.delays }
  else
    let emailjsResult := sendContactEmail env d 1
    { result :=
        if emailjsResult.result.success then emailjsResult.result
        else ⟨false, "fallback",
          "Unable to submit form. Please email directly at richard@borderlessbits.com"⟩,
      netlifyCalls := 0,
      emailjsCalls := emailjsResult.emailjsCalls,
      delays := emailjsResult.delays }

/-! Orchestrator model for `ContactForm.handleSubmit` and the `useFormStore`
state (`src/lib/store.ts`). -/

/-- The `FormStore` slice set by `setStatus`. -/
structure FormStoreState where
  isSubmitting : Bool
  submitStatus : String
  errorMessage : Option String
deriving DecidableEq

/-- `setStatus` from `src/lib/store.ts`. -/
def setStatus (status : String) (message : Option String) : FormStoreState :=
  { submitStatus := status, errorMessage := message,
    isSubmitting := decide (status = "submitting") }

/-- Everything observable about one `handleSubmit` invocation: the final
store state, the ordered `setStatus` calls, the rate-limiter state, the
delivery trace, the `setErrors` argument (if called) and whether the form
fields were reset. -/
structure SubmitOutcome where
  store : FormStoreState
  statusCalls : List (String × Option String)
  rl : RateLimiter
  netlifyCalls : Nat
  emailjsCalls : Nat
  delays : List Int
  errorsSet : Option (List (String × String))
  formReset : Bool

/-- `ContactForm.handleSubmit`: honeypot check, client-side rate limit,
sanitize + validate, then the dual delivery strategy.  `now` stands for
`Date.now()` during the `isAllowed` call; the store is passed in to model the
current `useFormStore` state.  The model is total, so the final `catch`
branch (for exceptions delivery never throws here) does not arise. -/
def handleSubmit (honeypotField : String) (formData : ContactFormData) (rl : RateLimiter)
    (now : Int) (store : FormStoreState) (env : DeliveryEnv) : SubmitOutcome :=
  if honeypotField ≠ "" then
    -- console.warn('Spam detected via honeypot'); return
    { store := store, statusCalls := [], rl := rl, netlifyCalls := 0, emailjsCalls := 0,
      delays := [], errorsSet := none, formReset := false }
  else
    let step := isAllowed rl "client" now 5 300000
    if step.fst = false then
      let remainingTime := getRemainingTime step.snd "client" now 5 300000
      let msg := "Too many attempts. Please wait " ++
        toString ((remainingTime.toNat + 59999) / 60000) ++ " minutes."
      { store := setStatus "error" (some msg), statusCalls := [("error", some msg)],
        rl := step.snd, netlifyCalls := 0, emailjsCalls := 0, delays := [],
        errorsSet := none, formReset := false }
    else
      let sanitizedData := formatFormDataForSubmission formData
      let validationErrors := validateContactForm sanitizedData
      if validationErrors ≠ [] then
        { store := setStatus "error" (some "Please fix the errors above"),
          statusCalls := [("submitting", none), ("error", some "Please fix the errors above")],
          rl := step.snd, netlifyCalls := 0, emailjsCalls := 0, delays := [],
          errorsSet := some validationErrors, formReset := false }
      else
        let t := submitContactForm env sanitizedData
        if t.result.success then
          { store := setStatus "success"
              (some "Thank you! Your message has been sent successfully."),
            statusCalls := [("submitting", none),
              ("success", some "Thank you! Your message has been sent successfully.")],
            rl := step.snd, netlifyCalls := t.netlifyCalls, emailjsCalls := t.emailjsCalls,
            delays := t.delays, errorsSet := some [], formReset := true }
        else
          { store := setStatus "error" (some t.result.message),
            statusCalls := [("submitting", none), ("error", some t.result.message)],
            rl := step.snd, netlifyCalls := t.netlifyCalls, emailjsCalls := t.emailjsCalls,
            delays := t.delays, errorsSet := none, formReset := false }

/-! Supporting notions and lemmas for the sanitizer (claim C3). -/

/-- Whether a character list starts with JS whitespace. -/
def headWs : List Char → Bool
  | [] => false
  | c :: _ => jsWhitespace c

/-- Whether a character list ends with JS whitespace. -/
def endsWithWs (l : List Char) : Bool :=
  match l.getLast? with
  | none => false
  | some c => jsWhitespace c

/-- Whitespace-normal form: every whitespace character is a plain space and
is not followed by further whitespace.  `collapseWs` output is of this form,
and `collapseWs` fixes lists of this form. -/
def normWs : List Char → Bool
  | [] => true
  | c :: rest =>
    if jsWhitespace c then (c = ' ') && !headWs rest && normWs rest
    else normWs rest

lemma stripTagsAux_no_lt : ∀ (l : List Char) (b : Bool), '<' ∉ stripTagsAux b l := by
  intro l
  induction l with
  | nil => intro b; cases b <;> simp [stripTagsAux]
  | cons c cs ih =>
    intro b
    cases b with
    | true =>
      simp only [stripTagsAux]
      split <;> exact ih _
    | false =>
      simp only [stripTagsAux]
      split
      · exact ih _
      · rename_i hne
        intro hmem
        rcases List.mem_cons.mp hmem with h | h
        · exact hne h.symm
        · exact ih false h

lemma stripTagsAux_false_of_no_lt :
    ∀ l : List Char, (∀ c ∈ l, c ≠ '<') → stripTagsAux false l = l := by
  intro l
  induction l with
  | nil => intro _; rfl
  | cons c cs ih =>
    intro h
    simp only [stripTagsAux]
    rw [if_neg (h c (List.mem_cons_self c cs)), ih (fun d hd => h d (List.mem_cons_of_mem c hd))]

lemma mem_trimRight : ∀ (l : List Char) (c : Char), c ∈ trimRight l → c ∈ l := by
  intro l
  induction l with
  | nil => intro c h; exact absurd h (List.not_mem_nil c)
  | cons x cs ih =>
    intro c h
    rw [trimRight] at h
    rcases htr : trimRight cs with _ | ⟨d, ds⟩ <;> rw [htr] at h
    · by_cases hx : jsWhitespace x
      · simp [hx] at h
      · simp [hx] at h
        subst h
        exact List.mem_cons_self c cs
    · simp only [List.mem_cons] at h
      rcases h with h1 | h1
      · exact h1 ▸ List.mem_cons_self x cs
      · exact List.mem_cons_of_mem x (ih c (by rw [htr]; exact List.mem_cons.mpr h1))

lemma mem_collapseAux :
    ∀ (l : List Char) (b : Bool) (c : Char), c ∈ collapseAux b l → c = ' ' ∨ c ∈ l := by
  intro l
  induction l with
  | nil => intro b c h; cases b <;> exact absurd h (List.not_mem_nil c)
  | cons d ds ih =>
    intro b c h
    simp only [collapseAux] at h
    by_cases hws : jsWhitespace d
    · rw [if_pos hws] at h
      cases b with
      | true =>
        rcases ih true c h with h1 | h1
        · exact Or.inl h1
        · exact Or.inr (List.mem_cons_of_mem d h1)
      | false =>
        simp only [if_neg (by simp : ¬(false = true))] at h
        rcases List.mem_cons.mp h with h1 | h1
        · exact Or.inl h1
        · rcases ih true c h1 with h2 | h2
          · exact Or.inl h2
          · exact Or.inr (List.mem_cons_of_mem d h2)
    · rw [if_neg hws] at h
      rcases List.mem_cons.mp h with h1 | h1
      · exact Or.inr (h1 ▸ List.mem_cons_self d ds)
      · rcases ih false c h1 with h2 | h2
        · exact Or.inl h2
        · exact Or.inr (List.mem_cons_of_mem d h2)

lemma headWs_dropWhile (l : List Char) : headWs (l.dropWhile jsWhitespace) = false := by
  induction l with
  | nil => rfl
  | cons c cs ih =>
    rw [List.dropWhile_cons]
    split
    · exact ih
    · rename_i hne
      simpa [headWs] using hne

lemma headWs_trimRight (l : List Char) (h : headWs l = false) : headWs (trimRight l) = false := by
  cases l with
  | nil => rfl
  | cons c cs =>
    simp only [headWs] at h
    rw [trimRight]
    rcases htr : trimRight cs with _ | ⟨d, ds⟩
    · rw [if_neg (by simp [h])]
      simpa [headWs] using h
    · simpa [headWs] using h

lemma headWs_collapseAux_false (l : List Char) (h : headWs l = false) :
    headWs (collapseAux false l) = false := by
  cases l with
  | nil => rfl
  | cons c cs =>
    simp only [headWs] at h
    simp [collapseAux, h, headWs]

lemma headWs_take (n : Nat) (l : List Char) (h : headWs l = false) :
    headWs (l.take n) = false := by
  cases n with
  | zero => rfl
  | succ m => cases l with
    | nil => rfl
    | cons c cs => simpa [List.take_succ_cons, headWs] using h

lemma dropWhile_eq_self (l : List Char) (h : headWs l = false) :
    l.dropWhile jsWhitespace = l := by
  cases l with
  | nil => rfl
  | cons c cs =>
    simp only [headWs] at h
    rw [List.dropWhile_cons, if_neg (by simp [h])]

lemma trimRight_concat_not_ws (b : Char) (hb : jsWhitespace b = false) :
    ∀ L : List Char, trimRight (L ++ [b]) = L ++ [b] := by
  intro L
  induction L with
  | nil => simp [trimRight, hb]
  | cons x L ih =>
    rw [List.cons_append, trimRight, ih]
    rcases hL : L ++ [b] with _ | ⟨d, ds⟩
    · exact absurd hL (by simp)
    · rfl

lemma trimRight_concat_ws (b : Char) (hb : jsWhitespace b = true) :
    ∀ L : List Char, trimRight (L ++ [b]) = trimRight L := by
  intro L
  induction L with
  | nil => simp [trimRight, hb]
  | cons x L ih =>
    rw [List.cons_append, trimRight, ih, trimRight]

lemma trimRight_eq_self (l : List Char) (h : endsWithWs l = false) : trimRight l = l := by
  rcases List.eq_nil_or_concat' l with hl | ⟨L, b, hl⟩
  · subst hl; rfl
  · subst hl
    unfold endsWithWs at h
    rw [List.getLast?_concat] at h
    exact trimRight_concat_not_ws b h L

lemma normWs_cons_iff (c : Char) (cs : List Char) :
    normWs (c :: cs) = true ↔
      ((jsWhitespace c = true → (c = ' ' ∧ headWs cs = false)) ∧ normWs cs = true) := by
  by_cases hws : jsWhitespace c <;> simp [normWs, hws]

lemma collapseAux_eq_self :
    ∀ l : List Char, normWs l = true →
      collapseAux false l = l ∧ (headWs l = false → collapseAux true l = l) := by
  intro l
  induction l with
  | nil => exact fun _ => ⟨rfl, fun _ => rfl⟩
  | cons c cs ih =>
    intro h
    rw [normWs_cons_iff] at h
    obtain ⟨hw, hcs⟩ := h
    by_cases hws : jsWhitespace c
    · obtain ⟨hsp, hh⟩ := hw hws
      constructor
      · simp only [collapseAux, if_pos hws, if_neg (by simp : ¬(false = true))]
        rw [(ih hcs).2 hh, hsp]
      · intro habs
        simp [headWs, hws] at habs
    · have h1 : collapseAux false cs = cs := (ih hcs).1
      constructor
      · simp only [collapseAux, if_neg hws, h1]
      · intro _
        simp only [collapseAux, if_neg hws, h1]

lemma normWs_collapseAux :
    ∀ l : List Char, normWs (collapseAux false l) = true ∧
      normWs (collapseAux true l) = true ∧ headWs (collapseAux true l) = false := by
  intro l
  induction l with
  | nil => exact ⟨rfl, rfl, rfl⟩
  | cons c cs ih =>
    obtain ⟨ih1, ih2, ih3⟩ := ih
    by_cases hws : jsWhitespace c
    · refine ⟨?_, ?_, ?_⟩
      · simp only [collapseAux, if_pos hws, if_neg (by simp : ¬(false = true))]
        rw [normWs_cons_iff]
        exact ⟨fun _ => ⟨rfl, ih3⟩, ih2⟩
      · simp only [collapseAux, if_pos hws]
        exact ih2
      · simp only [collapseAux, if_pos hws]
        exact ih3
    · refine ⟨?_, ?_, ?_⟩
      · simp only [collapseAux, if_neg hws]
        rw [normWs_cons_iff]
        exact ⟨fun habs => absurd habs (by simp [hws]), ih1⟩
      · simp only [collapseAux, if_neg hws]
        rw [normWs_cons_iff]
        exact ⟨fun habs => absurd habs (by simp [hws]), ih1⟩
      · simp only [collapseAux, if_neg hws, headWs]
        simpa using hws

lemma normWs_take : ∀ (l : List Char) (n : Nat), normWs l = true → normWs (l.take n) = true := by
  intro l
  induction l with
  | nil => intro n _; simp [normWs]
  | cons c cs ih =>
    intro n h
    cases n with
    | zero => rfl
    | succ m =>
      rw [List.take_succ_cons, normWs_cons_iff]
      rw [normWs_cons_iff] at h
      obtain ⟨hw, hcs⟩ := h
      exact ⟨fun hws => ⟨(hw hws).1, headWs_take m cs (hw hws).2⟩, ih m hcs⟩

lemma no_lt_sanitizeList (l : List Char) : ∀ c ∈ sanitizeList l, c ≠ '<' := by
  intro c hc
  have h1 : c ∈ collapseWs (trimList (stripTags l)) := List.take_subset 2000 _ hc
  rcases mem_collapseAux _ false c h1 with h2 | h2
  · subst h2; decide
  · have h3 : c ∈ (stripTags l).dropWhile jsWhitespace := mem_trimRight _ c h2
    have h4 : c ∈ stripTags l := (List.dropWhile_sublist jsWhitespace).subset h3
    intro habs
    subst habs
    exact stripTagsAux_no_lt l false h4

lemma headWs_sanitizeList (l : List Char) : headWs (sanitizeList l) = false :=
  headWs_take 2000 _ (headWs_collapseAux_false _ (headWs_trimRight _ (headWs_dropWhile _)))

lemma normWs_sanitizeList (l : List Char) : normWs (sanitizeList l) = true :=
  normWs_take _ 2000 (normWs_collapseAux (trimList (stripTags l))).1

lemma length_sanitizeList (l : List Char) : (sanitizeList l).length ≤ 2000 := by
  simp only [sanitizeList, List.length_take]
  exact Nat.min_le_left _ _

lemma sanitizeList_fixpoint (l : List Char) (h : endsWithWs (sanitizeList l) = false) :
    sanitizeList (sanitizeList l) = sanitizeList l := by
  have h1 : stripTags (sanitizeList l) = sanitizeList l :=
    stripTagsAux_false_of_no_lt _ (no_lt_sanitizeList l)
  have h2 : (sanitizeList l).dropWhile jsWhitespace = sanitizeList l :=
    dropWhile_eq_self _ (headWs_sanitizeList l)
  have h3 : trimRight (sanitizeList l) = sanitizeList l := trimRight_eq_self _ h
  have h4 : collapseWs (sanitizeList l) = sanitizeList l :=
    (collapseAux_eq_self _ (normWs_sanitizeList l)).1
  have h5 : (sanitizeList l).take 2000 = sanitizeList l :=
    List.take_of_length_le (length_sanitizeList l)
  conv_lhs => rw [sanitizeList, trimList, h1, h2, h3, h4, h5]

lemma collapseAux_replicate (c : Char) (hc : jsWhitespace c = false) :
    ∀ (n : Nat) (r : List Char),
      collapseAux false (List.replicate n c ++ r) = List.replicate n c ++ collapseAux false r := by
  intro n
  induction n with
  | zero => intro r; simp
  | succ m ih =>
    intro r
    rw [List.replicate_succ, List.cons_append, List.cons_append]
    simp [collapseAux, hc, ih r]

lemma headWs_replicate_append (c : Char) (hc : jsWhitespace c = false) (m : Nat) (r : List Char) :
    headWs (List.replicate (m + 1) c ++ r) = false := by
  rw [List.replicate_succ, List.cons_append]
  simpa [headWs] using hc

/-- Concrete input refuting idempotence of `sanitizeInput` (claim C3): 1999
copies of `a`, a space, then `b`.  The first sanitize truncates right after
the space; the second sanitize then trims that trailing space away. -/
def ceInput : String := String.mk (List.replicate 1999 'a' ++ [' ', 'b'])

lemma sanitizeList_ceInput :
    sanitizeList (List.replicate 1999 'a' ++ [' ', 'b']) = List.replicate 1999 'a' ++ [' '] := by
  have hstrip : stripTags (List.replicate 1999 'a' ++ [' ', 'b']) =
      List.replicate 1999 'a' ++ [' ', 'b'] := by
    apply stripTagsAux_false_of_no_lt
    intro c hc
    rcases List.mem_append.mp hc with h | h
    · rw [List.eq_of_mem_replicate h]; decide
    · rcases List.mem_cons.mp h with h1 | h1
      · rw [h1]; decide
      · rcases List.mem_cons.mp h1 with h2 | h2
        · rw [h2]; decide
        · exact absurd h2 (List.not_mem_nil c)
  have hhead : headWs (List.replicate 1999 'a' ++ [' ', 'b']) = false := by
    have h19 : (1998 : Nat) + 1 = 1999 := rfl
    have h := headWs_replicate_append 'a' (by decide) 1998 [' ', 'b']
    rw [h19] at h
    exact h
  have hdrop : (List.replicate 1999 'a' ++ [' ', 'b']).dropWhile jsWhitespace =
      List.replicate 1999 'a' ++ [' ', 'b'] := dropWhile_eq_self _ hhead
  have htrim : trimRight (List.replicate 1999 'a' ++ [' ', 'b']) =
      List.replicate 1999 'a' ++ [' ', 'b'] := by
    have h1 : List.replicate 1999 'a' ++ [' ', 'b'] =
        (List.replicate 1999 'a' ++ [' ']) ++ ['b'] := by
      rw [List.append_assoc, List.singleton_append]
    rw [h1, trimRight_concat_not_ws 'b' (by decide)]
  have hcollapse : collapseWs (List.replicate 1999 'a' ++ [' ', 'b']) =
      List.replicate 1999 'a' ++ [' ', 'b'] := by
    unfold collapseWs
    rw [collapseAux_replicate 'a' (by decide) 1999 [' ', 'b']]
    rfl
  have htake : (List.replicate 1999 'a' ++ [' ', 'b']).take 2000 =
      List.replicate 1999 'a' ++ [' '] := by
    have htk1 : (List.replicate 1999 'a').take 2000 = List.replicate 1999 'a' :=
      List.take_of_length_le (by rw [List.length_replicate]; norm_num)
    rw [List.take_append_eq_append_take, htk1, List.length_replicate]
    congr 1
  rw [sanitizeList, trimList, hstrip, hdrop, htrim, hcollapse, htake]

lemma sanitizeList_truncated :
    sanitizeList (List.replicate 1999 'a' ++ [' ']) = List.replicate 1999 'a' := by
  have hstrip : stripTags (List.replicate 1999 'a' ++ [' ']) =
      List.replicate 1999 'a' ++ [' '] := by
    apply stripTagsAux_false_of_no_lt
    intro c hc
    rcases List.mem_append.mp hc with h | h
    · rw [List.eq_of_mem_replicate h]; decide
    · rcases List.mem_cons.mp h with h1 | h1
      · rw [h1]; decide
      · exact absurd h1 (List.not_mem_nil c)
  have hhead : headWs (List.replicate 1999 'a' ++ [' ']) = false := by
    have h19 : (1998 : Nat) + 1 = 1999 := rfl
    have h := headWs_replicate_append 'a' (by decide) 1998 [' ']
    rw [h19] at h
    exact h
  have hdrop : (List.replicate 1999 'a' ++ [' ']).dropWhile jsWhitespace =
      List.replicate 1999 'a' ++ [' '] := dropWhile_eq_self _ hhead
  have htrim : trimRight (List.replicate 1999 'a' ++ [' ']) = List.replicate 1999 'a' := by
    rw [trimRight_concat_ws ' ' (by decide)]
    have h1 : List.replicate 1999 'a' = List.replicate 1998 'a' ++ ['a'] := by
      rw [← List.replicate_succ']
    rw [h1, trimRight_concat_not_ws 'a' (by decide)]
  have hcollapse : collapseWs (List.replicate 1999 'a') = List.replicate 1999 'a' := by
    unfold collapseWs
    have h2 := collapseAux_replicate 'a' (by decide) 1999 []
    rw [List.append_nil] at h2
    rw [h2, show collapseAux false ([] : List Char) = [] from rfl, List.append_nil]
  have htake : (List.replicate 1999 'a').take 2000 = List.replicate 1999 'a' :=
    List.take_of_length_le (by rw [List.length_replicate]; norm_num)
  rw [sanitizeList, trimList, hstrip, hdrop, htrim, hcollapse, htake]

lemma mk_ne_empty_of_length (l : List Char) (h : l.length ≠ 0) : String.mk l ≠ "" := by
  intro habs
  exact h (congrArg (fun s => s.data.length) habs)

/-- C3 counterexample: `sanitizeInput` is not idempotent.  On 1999 `a`s, a
space and a `b`, the truncation to 2000 characters cuts directly after the
space, so the sanitized output ends in a space that a second `sanitizeInput`
trims away. -/
theorem sanitizeInput_not_idempotent :
    sanitizeInput (sanitizeInput ceInput) ≠ sanitizeInput ceInput := by
  have hne : ceInput ≠ "" := by
    apply mk_ne_empty_of_length
    simp only [List.length_append, List.length_replicate, List.length_cons, List.length_nil]
    omega
  have e1 : sanitizeInput ceInput = String.mk (List.replicate 1999 'a' ++ [' ']) := by
    rw [sanitizeInput, if_neg hne]
    show String.mk (sanitizeList (List.replicate 1999 'a' ++ [' ', 'b'])) = _
    rw [sanitizeList_ceInput]
  have hne2 : String.mk (List.replicate 1999 'a' ++ [' ']) ≠ "" := by
    apply mk_ne_empty_of_length
    simp only [List.length_append, List.length_replicate, List.length_cons, List.length_nil]
    omega
  have e2 : sanitizeInput (String.mk (List.replicate 1999 'a' ++ [' '])) =
      String.mk (List.replicate 1999 'a') := by
    rw [sanitizeInput, if_neg hne2]
    show String.mk (sanitizeList (List.replicate 1999 'a' ++ [' '])) = _
    rw [sanitizeList_truncated]
  rw [e1, e2]
  intro habs
  have hlen : (List.replicate 1999 'a').length = (List.replicate 1999 'a' ++ [' ']).length :=
    congrArg (fun s => s.data.length) habs
  rw [List.length_append, List.length_replicate] at hlen
  simp only [List.length_cons, List.length_nil] at hlen
  omega

/-- C3 (amended): `sanitizeInput` is idempotent on every input whose
sanitized form does not end in whitespace; equivalently, idempotence can only
fail when the truncation to 2000 characters cuts directly after a space (the
second pass then drops that trailing space). -/
theorem sanitizeInput_idempotent_no_trailing_space (s : String)
    (h : endsWithWs (sanitizeInput s).toList = false) :
    sanitizeInput (sanitizeInput s) = sanitizeInput s := by
  by_cases hs : s = ""
  · subst hs; rfl
  · have hval : sanitizeInput s = String.mk (sanitizeList s.toList) := by
      rw [sanitizeInput, if_neg hs]
    rw [hval] at h ⊢
    have h' : endsWithWs (sanitizeList s.toList) = false := h
    rw [sanitizeInput]
    split
    · rename_i hemp
      exact hemp.symm
    · show String.mk (sanitizeList (sanitizeList s.toList)) = String.mk (sanitizeList s.toList)
      rw [sanitizeList_fixpoint s.toList h']

/-- Witness for C3 (amended) at the concrete input `"hi  there "`. -/
theorem sanitizeInput_idempotent_no_trailing_space_witness :
    endsWithWs (sanitizeInput "hi  there ").toList = false ∧
      sanitizeInput (sanitizeInput "hi  there ") = sanitizeInput "hi  there " :=
  ⟨by decide, sanitizeInput_idempotent_no_trailing_space "hi  there " (by decide)⟩

/-! Rate-limiter lemmas (claims C2, C8, C10). -/

lemma updateAttempts_self (rl : RateLimiter) (id : String) (l : List Int) :
    (updateAttempts rl id l).attempts id = l := by
  simp [updateAttempts]

lemma isAllowed_fst_true_iff (rl : RateLimiter) (id : String) (now : Int) (maxA : Nat)
    (wMs : Int) :
    (isAllowed rl id now maxA wMs).fst = true ↔
      ((rl.attempts id).filter (fun t => decide (now - t < wMs))).length < maxA := by
  unfold isAllowed
  dsimp only
  split <;> rename_i h <;> simp <;> omega

lemma isAllowed_snd_of_true (rl : RateLimiter) (id : String) (now : Int) (maxA : Nat)
    (wMs : Int) (h : (isAllowed rl id now maxA wMs).fst = true) :
    (isAllowed rl id now maxA wMs).snd =
      updateAttempts rl id
        (((rl.attempts id).filter (fun t => decide (now - t < wMs))) ++ [now]) := by
  rw [isAllowed_fst_true_iff] at h
  unfold isAllowed
  dsimp only
  rw [if_neg (by omega)]

/-- C2: sliding-window behavior of `RateLimiter.isAllowed` with the default
`maxAttempts = 5`, `windowMs = 300000`.  Six monotone calls inside one window
give five accepts and a sixth reject; the reject records nothing (the state
after six calls equals the state after five); and once the oldest attempt has
aged out of the window (seventh call), the limiter accepts again. -/
theorem rateLimiter_sliding_window (id : String) (t1 t2 t3 t4 t5 t6 t7 : Int)
    (h12 : t1 ≤ t2) (h23 : t2 ≤ t3) (h34 : t3 ≤ t4) (h45 : t4 ≤ t5) (h56 : t5 ≤ t6)
    (h67 : t6 ≤ t7) (hwin : t6 - t1 < 300000) (haged : 300000 ≤ t7 - t1)
    (hfresh : t7 - t2 < 300000) :
    (runCalls id emptyLimiter [t1, t2, t3, t4, t5, t6]).fst =
        [true, true, true, true, true, false] ∧
      (runCalls id emptyLimiter [t1, t2, t3, t4, t5, t6]).snd =
        (runCalls id emptyLimiter [t1, t2, t3, t4, t5]).snd ∧
      (runCalls id emptyLimiter [t1, t2, t3, t4, t5, t6, t7]).fst =
        [true, true, true, true, true, false, true] := by
  have d21 : decide (t2 - t1 < 300000) = true := decide_eq_true (by omega)
  have d31 : decide (t3 - t1 < 300000) = true := decide_eq_true (by omega)
  have d32 : decide (t3 - t2 < 300000) = true := decide_eq_true (by omega)
  have d41 : decide (t4 - t1 < 300000) = true := decide_eq_true (by omega)
  have d42 : decide (t4 - t2 < 300000) = true := decide_eq_true (by omega)
  have d43 : decide (t4 - t3 < 300000) = true := decide_eq_true (by omega)
  have d51 : decide (t5 - t1 < 300000) = true := decide_eq_true (by omega)
  have d52 : decide (t5 - t2 < 300000) = true := decide_eq_true (by omega)
  have d53 : decide (t5 - t3 < 300000) = true := decide_eq_true (by omega)
  have d54 : decide (t5 - t4 < 300000) = true := decide_eq_true (by omega)
  have d61 : decide (t6 - t1 < 300000) = true := decide_eq_true (by omega)
  have d62 : decide (t6 - t2 < 300000) = true := decide_eq_true (by omega)
  have d63 : decide (t6 - t3 < 300000) = true := decide_eq_true (by omega)
  have d64 : decide (t6 - t4 < 300000) = true := decide_eq_true (by omega)
  have d65 : decide (t6 - t5 < 300000) = true := decide_eq_true (by omega)
  have e71 : decide (t7 - t1 < 300000) = false := decide_eq_false (by omega)
  have e72 : decide (t7 - t2 < 300000) = true := decide_eq_true (by omega)
  have e73 : decide (t7 - t3 < 300000) = true := decide_eq_true (by omega)
  have e74 : decide (t7 - t4 < 300000) = true := decide_eq_true (by omega)
  have e75 : decide (t7 - t5 < 300000) = true := decide_eq_true (by omega)
  have s1 : isAllowed emptyLimiter id t1 5 300000 = (true, updateAttempts emptyLimiter id [t1]) := by
    simp [isAllowed, emptyLimiter]
  have s2 : isAllowed (updateAttempts emptyLimiter id [t1]) id t2 5 300000 =
      (true, updateAttempts (updateAttempts emptyLimiter id [t1]) id [t1, t2]) := by
    simp [isAllowed, updateAttempts_self, List.filter_cons, d21]
  have s3 : isAllowed (updateAttempts (updateAttempts emptyLimiter id [t1]) id [t1, t2]) id t3
        5 300000 =
      (true, updateAttempts (updateAttempts (updateAttempts emptyLimiter id [t1]) id [t1, t2])
        id [t1, t2, t3]) := by
    simp [isAllowed, updateAttempts_self, List.filter_cons, d31, d32]
  have s4 : isAllowed (updateAttempts (updateAttempts (updateAttempts emptyLimiter id [t1])
        id [t1, t2]) id [t1, t2, t3]) id t4 5 300000 =
      (true, updateAttempts (updateAttempts (updateAttempts (updateAttempts emptyLimiter id [t1])
        id [t1, t2]) id [t1, t2, t3]) id [t1, t2, t3, t4]) := by
    simp [isAllowed, updateAttempts_self, List.filter_cons, d41, d42, d43]
  have s5 : isAllowed (updateAttempts (updateAttempts (updateAttempts (updateAttempts
        emptyLimiter id [t1]) id [t1, t2]) id [t1, t2, t3]) id [t1, t2, t3, t4]) id t5
        5 300000 =
      (true, updateAttempts (updateAttempts (updateAttempts (updateAttempts (updateAttempts
        emptyLimiter id [t1]) id [t1, t2]) id [t1, t2, t3]) id [t1, t2, t3, t4]) id
        [t1, t2, t3, t4, t5]) := by
    simp [isAllowed, updateAttempts_self, List.filter_cons, d51, d52, d53, d54]
  have s6 : isAllowed (updateAttempts (updateAttempts (updateAttempts (updateAttempts
        (updateAttempts emptyLimiter id [t1]) id [t1, t2]) id [t1, t2, t3]) id
        [t1, t2, t3, t4]) id [t1, t2, t3, t4, t5]) id t6 5 300000 =
      (false, updateAttempts (updateAttempts (updateAttempts (updateAttempts (updateAttempts
        emptyLimiter id [t1]) id [t1, t2]) id [t1, t2, t3]) id [t1, t2, t3, t4]) id
        [t1, t2, t3, t4, t5]) := by
    simp [isAllowed, updateAttempts_self, List.filter_cons, d61, d62, d63, d64, d65]
  have s7 : isAllowed (updateAttempts (updateAttempts (updateAttempts (updateAttempts
        (updateAttempts emptyLimiter id [t1]) id [t1, t2]) id [t1, t2, t3]) id
        [t1, t2, t3, t4]) id [t1, t2, t3, t4, t5]) id t7 5 300000 =
      (true, updateAttempts (updateAttempts (updateAttempts (updateAttempts (updateAttempts
        (updateAttempts emptyLimiter id [t1]) id [t1, t2]) id [t1, t2, t3]) id
        [t1, t2, t3, t4]) id [t1, t2, t3, t4, t5]) id [t2, t3, t4, t5, t7]) := by
    simp [isAllowed, updateAttempts_self, List.filter_cons, e71, e72, e73, e74, e75]
  refine ⟨?_, ?_, ?_⟩ <;>
    simp only [runCalls, s1, s2, s3, s4, s5, s6, s7]

/-- Witness for C2 at `id = "client"`, call times 0..5 and a seventh call at
300000 (just after the first attempt leaves the window). -/
theorem rateLimiter_sliding_window_witness :
    ((0 : Int) ≤ 1 ∧ (1 : Int) ≤ 2 ∧ (2 : Int) ≤ 3 ∧ (3 : Int) ≤ 4 ∧ (4 : Int) ≤ 5 ∧
      (5 : Int) ≤ 300000 ∧ (5 : Int) - 0 < 300000 ∧ (300000 : Int) ≤ 300000 - 0 ∧
      (300000 : Int) - 1 < 300000) ∧
    ((runCalls "client" emptyLimiter [0, 1, 2, 3, 4, 5]).fst =
        [true, true, true, true, true, false] ∧
      (runCalls "client" emptyLimiter [0, 1, 2, 3, 4, 5]).snd =
        (runCalls "client" emptyLimiter [0, 1, 2, 3, 4]).snd ∧
      (runCalls "client" emptyLimiter [0, 1, 2, 3, 4, 5, 300000]).fst =
        [true, true, true, true, true, false, true]) :=
  ⟨by norm_num,
    rateLimiter_sliding_window "client" 0 1 2 3 4 5 300000 (by norm_num) (by norm_num)
      (by norm_num) (by norm_num) (by norm_num) (by norm_num) (by norm_num) (by norm_num)
      (by norm_num)⟩

/-- C8: when the recorded in-window attempts of an identifier have reached
`maxAttempts` (and, as `isAllowed` maintains, at most `maxAttempts` attempts
are stored), `getRemainingTime` returns the window length minus the age of
the oldest in-window timestamp, floored at 0 — and the floor does not bite.
Timestamps outside the window cannot contribute: under these hypotheses the
whole stored list lies inside the window, so `attempts[0]` is the oldest
in-window timestamp. -/
theorem getRemainingTime_oldest_in_window (rl : RateLimiter) (id : String) (now : Int)
    (maxA : Nat) (wMs : Int) (t0 : Int)
    (hstore : (rl.attempts id).length ≤ maxA)
    (hfull : maxA ≤ ((rl.attempts id).filter (fun t => decide (now - t < wMs))).length)
    (hhead : ((rl.attempts id).filter (fun t => decide (now - t < wMs))).head? = some t0) :
    getRemainingTime rl id now maxA wMs = max 0 (wMs - (now - t0)) ∧
      0 < wMs - (now - t0) := by
  have hflt : (rl.attempts id).filter (fun t => decide (now - t < wMs)) = rl.attempts id :=
    (List.filter_sublist _).eq_of_length
      (Nat.le_antisymm (List.length_filter_le _ _) (Nat.le_trans hstore hfull))
  have hmem : t0 ∈ (rl.attempts id).filter (fun t => decide (now - t < wMs)) := by
    rcases hh : (rl.attempts id).filter (fun t => decide (now - t < wMs)) with _ | ⟨a, as⟩
    · rw [hh] at hhead; exact absurd hhead (by simp)
    · rw [hh] at hhead
      simp only [List.head?_cons, Option.some.injEq] at hhead
      rw [hhead]
      exact List.mem_cons_self t0 as
  have hwin : now - t0 < wMs := by
    have := (List.mem_filter.mp hmem).2
    simpa using this
  have hpos : 0 < wMs - (now - t0) := by omega
  have hlen : maxA ≤ (rl.attempts id).length := by rw [← hflt]; exact hfull
  rw [hflt] at hhead
  refine ⟨?_, hpos⟩
  unfold getRemainingTime
  dsimp only
  rw [if_neg (by omega)]
  rcases ha : rl.attempts id with _ | ⟨a, as⟩
  · rw [ha] at hhead; exact absurd hhead (by simp)
  · rw [ha] at hhead
    simp only [List.head?_cons, Option.some.injEq] at hhead
    rw [hhead]

/-- Witness for C8: five stored timestamps 10..50, all inside the window at
`now = 60`; the oldest is 10 and the remaining time is 299950 ms. -/
theorem getRemainingTime_oldest_in_window_witness :
    (((updateAttempts emptyLimiter "client" [10, 20, 30, 40, 50]).attempts "client").length ≤ 5 ∧
      5 ≤ (((updateAttempts emptyLimiter "client" [10, 20, 30, 40, 50]).attempts
        "client").filter (fun t => decide ((60 : Int) - t < 300000))).length ∧
      (((updateAttempts emptyLimiter "client" [10, 20, 30, 40, 50]).attempts
        "client").filter (fun t => decide ((60 : Int) - t < 300000))).head? = some 10) ∧
    (getRemainingTime (updateAttempts emptyLimiter "client" [10, 20, 30, 40, 50]) "client"
        60 5 300000 = max 0 (300000 - (60 - 10)) ∧
      (0 : Int) < 300000 - (60 - 10)) :=
  ⟨by decide,
    getRemainingTime_oldest_in_window (updateAttempts emptyLimiter "client" [10, 20, 30, 40, 50])
      "client" 60 5 300000 10 (by decide) (by decide) (by decide)⟩

/-- C6: a non-empty honeypot field makes `handleSubmit` abort silently — no
`setStatus` call is made (so the form state cannot move to `error` or
`success` and no error is surfaced), the rate-limiter state is untouched, and
no delivery adapter is invoked. -/
theorem honeypot_silent_abort (honeypotField : String) (formData : ContactFormData)
    (rl : RateLimiter) (now : Int) (store : FormStoreState) (env : DeliveryEnv)
    (h : honeypotField ≠ "") :
    handleSubmit honeypotField formData rl now store env =
      { store := store, statusCalls := [], rl := rl, netlifyCalls := 0, emailjsCalls := 0,
        delays := [], errorsSet := none, formReset := false } := by
  simp only [handleSubmit]
  rw [if_pos h]

/-- Concrete environment whose adapters never succeed (used in witnesses). -/
def envIdle : DeliveryEnv :=
  { onNetlifyHost := false, netlifyOk := false, serviceId := "sid", templateId := "tid",
    publicKey := "pk", emailjsSendOk := fun _ => false, emailjsErrorMsg := "network error" }

/-- An idle store state. -/
def storeIdle : FormStoreState := { isSubmitting := false, submitStatus := "idle", errorMessage := none }

/-- A store state currently in the `submitting` status. -/
def storeSubmitting : FormStoreState :=
  { isSubmitting := true, submitStatus := "submitting", errorMessage := none }

/-- A submission that fails field validation (all required fields empty). -/
def dInvalid : ContactFormData :=
  { name := "", email := "", company := none, project_type := "cloud_architecture",
    project_timeline := "planning_phase", message := "", budget_range := none,
    referral_source := none }

/-- Witness for C6 at a concrete populated honeypot. -/
theorem honeypot_silent_abort_witness :
    ("spam-bot-fill" : String) ≠ "" ∧
      handleSubmit "spam-bot-fill" dInvalid emptyLimiter 0 storeIdle envIdle =
        { store := storeIdle, statusCalls := [], rl := emptyLimiter, netlifyCalls := 0,
          emailjsCalls := 0, delays := [], errorsSet := none, formReset := false } :=
  ⟨by decide, honeypot_silent_abort "spam-bot-fill" dInvalid emptyLimiter 0 storeIdle envIdle
    (by decide)⟩

/-- C9 counterexample: a submit attempt processed while the store is already
in the `submitting` status is *not* ignored — the handler runs the rate-limit
check (consuming a slot) and validation, and issues new `setStatus` calls. -/
theorem submit_while_submitting_runs_pipeline :
    storeSubmitting.submitStatus = "submitting" ∧
      (handleSubmit "" dInvalid emptyLimiter 0 storeSubmitting envIdle).statusCalls =
        [("submitting", none), ("error", some "Please fix the errors above")] ∧
      (handleSubmit "" dInvalid emptyLimiter 0 storeSubmitting envIdle).rl.attempts "client" =
        [0] := by
  refine ⟨rfl, ?_, ?_⟩ <;> decide

/-- C9 (amended): the submit handler never consults the current submission
status — every observable effect of `handleSubmit` (status calls, rate-limiter
state, delivery calls, delays, error setting, form reset) is identical
whatever store state it starts from, `submitting` included.  Only the UI-level
disabled submit button prevents concurrent submissions. -/
theorem handleSubmit_ignores_submitStatus (honeypotField : String) (formData : ContactFormData)
    (rl : RateLimiter) (now : Int) (env : DeliveryEnv) (s s' : FormStoreState) :
    (handleSubmit honeypotField formData rl now s env).statusCalls =
        (handleSubmit honeypotField formData rl now s' env).statusCalls ∧
      (handleSubmit honeypotField formData rl now s env).rl =
        (handleSubmit honeypotField formData rl now s' env).rl ∧
      (handleSubmit honeypotField formData rl now s env).netlifyCalls =
        (handleSubmit honeypotField formData rl now s' env).netlifyCalls ∧
      (handleSubmit honeypotField formData rl now s env).emailjsCalls =
        (handleSubmit honeypotField formData rl now s' env).emailjsCalls ∧
      (handleSubmit honeypotField formData rl now s env).delays =
        (handleSubmit honeypotField formData rl now s' env).delays ∧
      (handleSubmit honeypotField formData rl now s env).errorsSet =
        (handleSubmit honeypotField formData rl now s' env).errorsSet ∧
      (handleSubmit honeypotField formData rl now s env).formReset =
        (handleSubmit honeypotField formData rl now s' env).formReset := by
  by_cases c1 : honeypotField ≠ ""
  · simp [handleSubmit, c1]
  · by_cases c2 : (isAllowed rl "client" now 5 300000).fst = false
    · simp [handleSubmit, c1, c2]
    · by_cases c3 : validateContactForm (formatFormDataForSubmission formData) ≠ []
      · simp [handleSubmit, c1, c2, c3]
      · by_cases c4 :
          (submitContactForm env (formatFormDataForSubmission formData)).result.success
        · simp [handleSubmit, c1, c2, c3, c4]
        · simp [handleSubmit, c1, c2, c3, c4]

/-- C10: with an empty honeypot and a rate limiter that accepts the call, the
timestamp is recorded *before* validation runs — a submission that then fails
validation makes no delivery attempt, yet the limiter state has already
consumed one slot (the pruned in-window list plus the current timestamp). -/
theorem rate_limit_slot_consumed_before_validation (formData : ContactFormData)
    (rl : RateLimiter) (now : Int) (store : FormStoreState) (env : DeliveryEnv)
    (hallow : (isAllowed rl "client" now 5 300000).fst = true)
    (hval : validateContactForm (formatFormDataForSubmission formData) ≠ []) :
    (handleSubmit "" formData rl now store env).rl =
        (isAllowed rl "client" now 5 300000).snd ∧
      (handleSubmit "" formData rl now store env).rl.attempts "client" =
        ((rl.attempts "client").filter (fun t => decide (now - t < 300000))) ++ [now] ∧
      (handleSubmit "" formData rl now store env).netlifyCalls = 0 ∧
      (handleSubmit "" formData rl now store env).emailjsCalls = 0 ∧
      (handleSubmit "" formData rl now store env).statusCalls =
        [("submitting", none), ("error", some "Please fix the errors above")] := by
  have hmain : handleSubmit "" formData rl now store env =
      { store := setStatus "error" (some "Please fix the errors above"),
        statusCalls := [("submitting", none), ("error", some "Please fix the errors above")],
        rl := (isAllowed rl "client" now 5 300000).snd, netlifyCalls := 0, emailjsCalls := 0,
        delays := [],
        errorsSet := some (validateContactForm (formatFormDataForSubmission formData)),
        formReset := false } := by
    simp only [handleSubmit]
    rw [if_neg (by simp), if_neg (by rw [hallow]; simp), if_pos hval]
  rw [hmain]
  refine ⟨rfl, ?_, rfl, rfl, rfl⟩
  rw [isAllowed_snd_of_true rl "client" now 5 300000 hallow, updateAttempts_self]

/-- Witness for C10: empty limiter (so the attempt is accepted) and a
submission failing validation; the slot `[0]` is recorded with no delivery. -/
theorem rate_limit_slot_consumed_before_validation_witness :
    ((isAllowed emptyLimiter "client" 0 5 300000).fst = true ∧
      validateContactForm (formatFormDataForSubmission dInvalid) ≠ []) ∧
    ((handleSubmit "" dInvalid emptyLimiter 0 storeIdle envIdle).rl =
        (isAllowed emptyLimiter "client" 0 5 300000).snd ∧
      (handleSubmit "" dInvalid emptyLimiter 0 storeIdle envIdle).rl.attempts "client" =
        ((emptyLimiter.attempts "client").filter (fun t => decide ((0 : Int) - t < 300000))) ++
          [0] ∧
      (handleSubmit "" dInvalid emptyLimiter 0 storeIdle envIdle).netlifyCalls = 0 ∧
      (handleSubmit "" dInvalid emptyLimiter 0 storeIdle envIdle).emailjsCalls = 0 ∧
      (handleSubmit "" dInvalid emptyLimiter 0 storeIdle envIdle).statusCalls =
        [("submitting", none), ("error", some "Please fix the errors above")]) :=
  ⟨⟨by decide, by decide⟩,
    rate_limit_slot_consumed_before_validation dInvalid emptyLimiter 0 storeIdle envIdle
      (by decide) (by decide)⟩

/-! Validation-aggregation lemmas (claim C5). -/

lemma optErr_eq_nil (field : String) (r : Option String) :
    optErr field r = [] ↔ r = none := by
  cases r <;> simp [optErr]

lemma if_guard_eq_nil (b : Bool) (X : List (String × String)) :
    (if b = true then X else []) = [] ↔ (b = true → X = []) := by
  cases b <;> simp

lemma if_enum_eq_nil (b : Bool) (e : String × String) :
    (if b = true then [] else [e]) = [] ↔ b = true := by
  cases b <;> simp

/-- C5: `validateContactForm` returns the empty error mapping iff every
required field (name, email, message via `validateField`; the two enums via
membership in their closed value lists) passes and every *present* optional
field (company, budget_range, referral_source — present meaning JS-truthy,
i.e. set and non-empty) passes its rule.  The model is a pure function, so
the input is never mutated. -/
theorem validateContactForm_empty_iff (d : ContactFormData) :
    validateContactForm d = [] ↔
      (validateField "name" d.name = none ∧ validateField "email" d.email = none ∧
        validateField "message" d.message = none ∧
        (present d.company = true → validateField "company" (d.company.getD "") = none) ∧
        validProjectTypes.contains d.project_type = true ∧
        validTimelines.contains d.project_timeline = true ∧
        (present d.budget_range = true →
          validBudgetRanges.contains (d.budget_range.getD "") = true) ∧
        (present d.referral_source = true →
          validReferralSources.contains (d.referral_source.getD "") = true)) := by
  unfold validateContactForm
  simp only [List.append_eq_nil, optErr_eq_nil, if_guard_eq_nil, if_enum_eq_nil, and_assoc]

/-! Spam-heuristic aggregation (claim C4). -/

lemma two_of_six : ∀ b0 b1 b2 b3 b4 b5 : Bool,
    (2 ≤ (([b0, b1, b2, b3, b4, b5].filter (fun b => b)).length)) ↔
      ∃ i j : Fin 6, i < j ∧ [b0, b1, b2, b3, b4, b5].getD i.val false = true ∧
        [b0, b1, b2, b3, b4, b5].getD j.val false = true := by
  decide

/-- C4 (amended): `isLikelySpam` returns true iff at least two distinct
signals among the six code signals fire, where signal (e) — index 4 — is the
code's `/\d{5,}@/`: five or more consecutive digits *immediately before* the
`@` (not merely anywhere in the local part), or a `noreply`/`no-reply`
email. -/
theorem isLikelySpam_iff_two_signals (d : ContactFormData) :
    isLikelySpam d = true ↔
      ∃ i j : Fin 6, i < j ∧ (spamIndicators d).getD i.val false = true ∧
        (spamIndicators d).getD j.val false = true := by
  rw [isLikelySpam, decide_eq_true_eq]
  unfold spamIndicators
  exact two_of_six _ _ _ _ _ _

/-- Concrete submission separating the spec wording of signal (e) from the
code: the email local part `12345a` contains five consecutive digits, but
they are not adjacent to the `@`. -/
def dSpam4 : ContactFormData :=
  { name := "test", email := "12345a@x.com", company := none, project_type := "other",
    project_timeline := "immediate", message := "hello there my friend",
    budget_range := none, referral_source := none }

/-- C4 counterexample: with name `test` (signal f) and email `12345a@x.com`,
two of the six signals *as the spec words them* fire (spec signal (e) counts
five consecutive digits anywhere in the local part), so the claimed iff
demands `isLikelySpam = true`; the code returns false because `/\d{5,}@/`
requires the digit run to touch the `@`. -/
theorem isLikelySpam_spec_signals_false :
    isLikelySpam dSpam4 = false ∧
      2 ≤ ((specSpamSignals dSpam4).filter (fun b => b)).length := by
  decide

/-! Delivery-chain lemmas (claims C1 and C7). -/

lemma sendContactEmail_config_false (env : DeliveryEnv) (d : ContactFormData)
    (h : validateEmailJSConfig env = false) :
    sendContactEmail env d 1 =
      { result := ⟨false, "emailjs", "EmailJS configuration is incomplete"⟩,
        netlifyCalls := 0, emailjsCalls := 0,
        delays := [getRetryDelay 1, getRetryDelay 2] } := by
  have e3 : sendContactEmail env d 3 =
      { result := ⟨false, "emailjs", "EmailJS configuration is incomplete"⟩,
        netlifyCalls := 0, emailjsCalls := 0, delays := [] } := by
    rw [sendContactEmail.eq_def]
    rw [if_pos h, if_neg (by decide)]
  have e2 : sendContactEmail env d 2 =
      { result := ⟨false, "emailjs", "EmailJS configuration is incomplete"⟩,
        netlifyCalls := 0, emailjsCalls := 0, delays := [getRetryDelay 2] } := by
    rw [sendContactEmail.eq_def]
    rw [if_pos h, if_pos (by decide)]
    rw [show (2 : Nat) + 1 = 3 from rfl, e3]
  rw [sendContactEmail.eq_def]
  rw [if_pos h, if_pos (by decide)]
  rw [show (1 : Nat) + 1 = 2 from rfl, e2]

lemma sendContactEmail_all_fail (env : DeliveryEnv) (d : ContactFormData)
    (hcfg : validateEmailJSConfig env = true)
    (hspam : isLikelySpam (formatFormDataForSubmission d) = false)
    (hfail : ∀ k, env.emailjsSendOk k = false) :
    sendContactEmail env d 1 =
      { result := ⟨false, "emailjs", env.emailjsErrorMsg⟩, netlifyCalls := 0,
        emailjsCalls := 3, delays := [getRetryDelay 1, getRetryDelay 2] } := by
  have e3 : sendContactEmail env d 3 =
      { result := ⟨false, "emailjs", env.emailjsErrorMsg⟩, netlifyCalls := 0,
        emailjsCalls := 1, delays := [] } := by
    rw [sendContactEmail.eq_def]
    rw [if_neg (by simp [hcfg]), if_neg (by simp [hspam]), if_neg (by simp [hfail 3]),
      if_neg (by decide)]
  have e2 : sendContactEmail env d 2 =
      { result := ⟨false, "emailjs", env.emailjsErrorMsg⟩, netlifyCalls := 0,
        emailjsCalls := 2, delays := [getRetryDelay 2] } := by
    rw [sendContactEmail.eq_def]
    rw [if_neg (by simp [hcfg]), if_neg (by simp [hspam]), if_neg (by simp [hfail 2]),
      if_pos (by decide)]
    rw [show (2 : Nat) + 1 = 3 from rfl, e3]
    rfl
  rw [sendContactEmail.eq_def]
  rw [if_neg (by simp [hcfg]), if_neg (by simp [hspam]), if_neg (by simp [hfail 1]),
    if_pos (by decide)]
  rw [show (1 : Nat) + 1 = 2 from rfl, e2]
  rfl

/-- Environment with a missing EmailJS service id (configuration invalid). -/
def envNoConfig : DeliveryEnv :=
  { onNetlifyHost := false, netlifyOk := false, serviceId := "", templateId := "tid",
    publicKey := "pk", emailjsSendOk := fun _ => false, emailjsErrorMsg := "network error" }

/-- C7 counterexample: with an incomplete configuration the adapter makes no
network call and ends with the configuration-error result, but it does *not*
fail fast — the thrown configuration error is caught by the retry handler, so
the adapter walks the whole backoff schedule (delays 1000 ms and 2000 ms)
before returning. -/
theorem config_error_enters_retry_loop :
    (sendContactEmail envNoConfig dInvalid 1).emailjsCalls = 0 ∧
      (sendContactEmail envNoConfig dInvalid 1).result =
        ⟨false, "emailjs", "EmailJS configuration is incomplete"⟩ ∧
      (sendContactEmail envNoConfig dInvalid 1).delays = [1000, 2000] ∧
      (sendContactEmail envNoConfig dInvalid 1).delays ≠ [] := by
  rw [sendContactEmail_config_false envNoConfig dInvalid (by decide)]
  refine ⟨rfl, rfl, by decide, by decide⟩

/-- C7 (amended): with any missing configuration value, `sendContactEmail`
returns the configuration-error result and makes no `emailjs.send` network
call, but only after passing through the full retry loop: the configuration
check throws inside the `try`, so the catch retries it twice more, sleeping
the backoff delays 1000 ms and 2000 ms before the final failure result. -/
theorem config_error_retries_no_network (env : DeliveryEnv) (d : ContactFormData)
    (h : validateEmailJSConfig env = false) :
    sendContactEmail env d 1 =
        { result := ⟨false, "emailjs", "EmailJS configuration is incomplete"⟩,
          netlifyCalls := 0, emailjsCalls := 0,
          delays := [getRetryDelay 1, getRetryDelay 2] } ∧
      getRetryDelay 1 = 1000 ∧ getRetryDelay 2 = 2000 :=
  ⟨sendContactEmail_config_false env d h, by decide, by decide⟩

/-- Witness for C7 (amended) at a concrete environment missing its service
id. -/
theorem config_error_retries_no_network_witness :
    validateEmailJSConfig envNoConfig = false ∧
      (sendContactEmail envNoConfig dInvalid 1 =
          { result := ⟨false, "emailjs", "EmailJS configuration is incomplete"⟩,
            netlifyCalls := 0, emailjsCalls := 0,
            delays := [getRetryDelay 1, getRetryDelay 2] } ∧
        getRetryDelay 1 = 1000 ∧ getRetryDelay 2 = 2000) :=
  ⟨by decide, config_error_retries_no_network envNoConfig dInvalid (by decide)⟩

/-- Environment hosted on `netlify.app` whose Netlify POST and every
`emailjs.send` fail. -/
def envNetlifyFails : DeliveryEnv :=
  { onNetlifyHost := true, netlifyOk := false, serviceId := "sid", templateId := "tid",
    publicKey := "pk", emailjsSendOk := fun _ => false, emailjsErrorMsg := "network error" }

/-- A well-formed, non-spam submission. -/
def dValid : ContactFormData :=
  { name := "Alice Smith", email := "alice@example.com", company := none,
    project_type := "cloud_architecture", project_timeline := "planning_phase",
    message := "I would like to discuss a cloud migration project.",
    budget_range := none, referral_source := none }

/-- C1 counterexample: on a run where the primary (Netlify) adapter fails,
the primary is invoked exactly once — not retried up to 3 attempts — and the
fallback (EmailJS) adapter is invoked 3 times — not exactly once.  This
refutes the claimed retry-on-primary/single-fallback shape. -/
theorem primary_retry_claim_false :
    (submitContactForm envNetlifyFails dValid).netlifyCalls = 1 ∧
      (submitContactForm envNetlifyFails dValid).emailjsCalls = 3 ∧
      ¬((submitContactForm envNetlifyFails dValid).netlifyCalls = 3 ∧
        (submitContactForm envNetlifyFails dValid).emailjsCalls = 1) := by
  have hsend := sendContactEmail_all_fail envNetlifyFails dValid (by decide) (by decide)
    (fun k => rfl)
  have hnetl : submitNetlifyForm envNetlifyFails dValid =
      { result := ⟨false, "netlify", "Netlify Forms error"⟩, netlifyCalls := 1,
        emailjsCalls := 0, delays := [] } := by
    unfold submitNetlifyForm
    rw [if_neg (by decide), if_neg (by decide)]
  have hmain : submitContactForm envNetlifyFails dValid =
      { result := ⟨false, "fallback",
          "Unable to submit form. Please email directly at richard@borderlessbits.com"⟩,
        netlifyCalls := 1, emailjsCalls := 3,
        delays := [getRetryDelay 1, getRetryDelay 2] } := by
    simp [submitContactForm, hnetl, hsend,
      show envNetlifyFails.onNetlifyHost = true from rfl]
  rw [hmain]
  exact ⟨rfl, rfl, by decide⟩

/-- C1 (amended): when hosted on the Netlify platform with a failing Netlify
POST, a valid non-spam submission triggers the primary adapter exactly once
(it is not retried); the fallback EmailJS adapter is then invoked and
internally retried up to 3 attempts with exponential backoff — delays
`1000 ms` then `2000 ms` (base 1000 ms doubling per attempt, capped at
5000 ms) — before the terminal `fallback` failure result is returned. -/
theorem fallback_retry_chain (env : DeliveryEnv) (d : ContactFormData)
    (hhost : env.onNetlifyHost = true) (hnet : env.netlifyOk = false)
    (hcfg : validateEmailJSConfig env = true)
    (hspam : isLikelySpam (formatFormDataForSubmission d) = false)
    (hfail : ∀ k, env.emailjsSendOk k = false) :
    (submitContactForm env d).netlifyCalls = 1 ∧
      (submitContactForm env d).emailjsCalls = 3 ∧
      (submitContactForm env d).delays = [getRetryDelay 1, getRetryDelay 2] ∧
      getRetryDelay 1 = 1000 ∧ getRetryDelay 2 = 2000 ∧
      (∀ k, getRetryDelay k ≤ RETRY_maxDelay) ∧
      (submitContactForm env d).result =
        ⟨false, "fallback",
          "Unable to submit form. Please email directly at richard@borderlessbits.com"⟩ := by
  have hsend := sendContactEmail_all_fail env d hcfg hspam hfail
  have hnetl : submitNetlifyForm env d =
      { result := ⟨false, "netlify", "Netlify Forms error"⟩, netlifyCalls := 1,
        emailjsCalls := 0, delays := [] } := by
    unfold submitNetlifyForm
    rw [if_neg (by simp [hspam]), if_neg (by simp [hnet])]
  have hmain : submitContactForm env d =
      { result := ⟨false, "fallback",
          "Unable to submit form. Please email directly at richard@borderlessbits.com"⟩,
        netlifyCalls := 1, emailjsCalls := 3,
        delays := [getRetryDelay 1, getRetryDelay 2] } := by
    simp [submitContactForm, hhost, hnetl, hsend]
  rw [hmain]
  refine ⟨rfl, rfl, rfl, by decide, by decide, ?_, rfl⟩
  intro k
  unfold getRetryDelay
  exact min_le_right _ _

/-- Witness for C1 (amended) at the concrete failing environment and a valid
submission. -/
theorem fallback_retry_chain_witness :
    (envNetlifyFails.onNetlifyHost = true ∧ envNetlifyFails.netlifyOk = false ∧
      validateEmailJSConfig envNetlifyFails = true ∧
      isLikelySpam (formatFormDataForSubmission dValid) = false ∧
      ∀ k, envNetlifyFails.emailjsSendOk k = false) ∧
    ((submitContactForm envNetlifyFails dValid).netlifyCalls = 1 ∧
      (submitContactForm envNetlifyFails dValid).emailjsCalls = 3 ∧
      (submitContactForm envNetlifyFails dValid).delays =
        [getRetryDelay 1, getRetryDelay 2] ∧
      getRetryDelay 1 = 1000 ∧ getRetryDelay 2 = 2000 ∧
      (∀ k, getRetryDelay k ≤ RETRY_maxDelay) ∧
      (submitContactForm envNetlifyFails dValid).result =
        ⟨false, "fallback",
          "Unable to submit form. Please email directly at richard@borderlessbits.com"⟩) :=
  ⟨⟨rfl, rfl, by decide, by decide, fun k => rfl⟩,
    fallback_retry_chain envNetlifyFails dValid rfl rfl (by decide) (by decide)
      (fun k => rfl)⟩

end BorderlessBits
